import Mathlib

/-
Verification of the BB84 error-correction and key-processing core.

The definitions below are a shallow embedding of the Python sources
`BB84ErrorCorrection.py` and `key_processing.py`.  Bits are modelled as
`Nat` (the Python code works on int arrays), bit vectors as `List Nat`,
matrices as `List (List Nat)`, and the Python dict used for the syndrome
tables as an association list with overwriting insertion.  Code paths that
raise a Python exception are modelled with `Except PyErr`.
-/

namespace BB84

/-- Error kinds raised by the Python code: the explicit length checks
raise ValueError with a length message; `np.dot` with misaligned shapes
raises a numpy ValueError; `np.concatenate` of an empty list of arrays
raises ValueError as well. -/
inductive PyErr where
  | invalidLength
  | shapeMismatch
  | emptyConcat
  deriving DecidableEq

/-- Code length of the Steane instance (`self.n1 = 7`). -/
def n1 : Nat := 7

/-- First dimension parameter (`self.k1 = 1`). -/
def k1 : Nat := 1

/-- Second dimension parameter (`self.k2 = 3`). -/
def k2 : Nat := 3

/-- Generator matrix `G1` of the source (3 rows, 7 columns). -/
def G1 : List (List Nat) :=
  [[1, 0, 0, 1, 0, 1, 0],
   [0, 1, 0, 1, 0, 0, 1],
   [0, 0, 1, 0, 1, 1, 1]]

/-- Generator matrix `G2` of the source (4 rows, 7 columns). -/
def G2 : List (List Nat) :=
  [[1, 0, 0, 1, 0, 1, 0],
   [0, 1, 0, 1, 0, 0, 1],
   [0, 0, 1, 0, 1, 1, 1],
   [0, 0, 0, 1, 1, 1, 0]]

/-- Parity check matrix `H1` of the source (4 rows, 7 columns). -/
def H1 : List (List Nat) :=
  [[0, 0, 0, 1, 1, 1, 0],
   [0, 1, 1, 0, 0, 1, 0],
   [1, 0, 1, 0, 1, 0, 0],
   [1, 1, 0, 1, 0, 0, 0]]

/-- Parity check matrix `H2` of the source (3 rows, 7 columns). -/
def H2 : List (List Nat) :=
  [[0, 0, 0, 1, 1, 1, 0],
   [0, 1, 1, 0, 0, 1, 0],
   [1, 0, 1, 0, 1, 0, 0]]

/-- `np.dot(M, v)` for a matrix and a vector whose length matches the rows
(all call sites apply it to length-7 rows and length-7 vectors). -/
def npDotMatVec (M : List (List Nat)) (v : List Nat) : List Nat :=
  M.map (fun row => (List.zipWith (fun a b => a * b) row v).sum)

/-- `np.dot(v, M)` for a row vector and a matrix; numpy raises ValueError
unless the vector length equals the number of rows of the matrix, which is
modelled by returning `none` in that case.  Entry `j` of the product is
the sum over `i` of `v[i] * M[i][j]`. -/
def npDotVecMat (v : List Nat) (M : List (List Nat)) : Option (List Nat) :=
  if v.length = M.length then
    some ((List.range (M.headD []).length).map (fun j =>
      (List.zipWith (fun a row => a * List.getD row j 0) v M).sum))
  else
    none

/-- `np.mod(_, 2)` applied elementwise. -/
def mod2 (l : List Nat) : List Nat := l.map (fun b => b % 2)

/-- `_syndrome_to_key`: `int(''.join(map(str, syndrome)), 2)`; on the 0/1
vectors it is applied to, this reads the entries as big-endian base-2
digits. -/
def syndromeToKey (syndrome : List Nat) : Nat :=
  syndrome.foldl (fun acc b => 2 * acc + b) 0

/-- `np.zeros(n)` with a single 1 written at position `i`. -/
def unitError (n i : Nat) : List Nat :=
  (List.range n).map (fun j => if j = i then 1 else 0)

/-- `np.zeros(n1)` with 1 written at positions `i` and `j`. -/
def twoError (i j : Nat) : List Nat :=
  (List.range n1).map (fun p => if p = i ∨ p = j then 1 else 0)

/-- The all-zero error pattern `np.zeros(n1)`. -/
def zeroError : List Nat := List.replicate n1 0

/-- The Python dict used for the syndrome tables, as an association list. -/
abbrev Dict := List (Nat × List Nat)

/-- Python `key in d`. -/
def dictContains (d : Dict) (key : Nat) : Bool :=
  d.any (fun p => p.1 == key)

/-- Python `d[key] = v`: overwrite the entry if the key is present,
otherwise append it. -/
def dictInsert (d : Dict) (key : Nat) (v : List Nat) : Dict :=
  if dictContains d key then
    d.map (fun p => if p.1 == key then (key, v) else p)
  else
    d ++ [(key, v)]

/-- Python `d[key]` guarded by a membership test: the found value, if any. -/
def dictLookup (d : Dict) (key : Nat) : Option (List Nat) :=
  (d.find? (fun p => p.1 == key)).map (fun p => p.2)

/-- First phase of `_build_syndrome_table`: for every position `i` of the
block, insert the syndrome of the weight-1 pattern `e_i` (under `H2` for
the x table and `H1` for the z table), mapped to `e_i`. -/
def tablesPhase1 : Dict × Dict :=
  (List.range n1).foldl
    (fun td i =>
      let error := unitError n1 i
      (dictInsert td.1 (syndromeToKey (mod2 (npDotMatVec H2 error))) error,
       dictInsert td.2 (syndromeToKey (mod2 (npDotMatVec H1 error))) error))
    ([], [])

/-- Second phase: the no-error case, keying the all-zero syndrome of each
parity matrix to the all-zero pattern (this overwrites the weight-1 entry
for position 6, whose syndrome is zero under both `H1` and `H2`). -/
def tablesPhase2 : Dict × Dict :=
  (dictInsert tablesPhase1.1 (syndromeToKey (List.replicate H2.length 0)) zeroError,
   dictInsert tablesPhase1.2 (syndromeToKey (List.replicate H1.length 0)) zeroError)

/-- The pair iterator of the weight-2 phase.  In the source the loop header
is `for i, j in product(range(self.n1), range(i+1, self.n1))`: the
arguments of `product` are evaluated once, and at that point the name `i`
still holds `n1 - 1`, the last value of the completed weight-1 loop.  The
second iterable is therefore `range(n1, n1)`, which is empty, so the whole
iterator is empty and the loop body never runs. -/
def twoBitPairs : List (Nat × Nat) :=
  (List.range n1).flatMap
    (fun a => ((List.range n1).drop ((n1 - 1) + 1)).map (fun b => (a, b)))

/-- Third phase of `_build_syndrome_table`: for each pair delivered by the
(empty) iterator, add the weight-2 pattern under its syndrome key unless
the key is already present. -/
def buildSyndromeTables : Dict × Dict :=
  twoBitPairs.foldl
    (fun td p =>
      let error := twoError p.1 p.2
      let xkey := syndromeToKey (mod2 (npDotMatVec H2 error))
      let xd := if dictContains td.1 xkey then td.1 else dictInsert td.1 xkey error
      let zkey := syndromeToKey (mod2 (npDotMatVec H1 error))
      let zd := if dictContains td.2 zkey then td.2 else dictInsert td.2 zkey error
      (xd, zd))
    tablesPhase2

/-- `self.x_syndrome_table` after construction. -/
def x_syndrome_table : Dict := buildSyndromeTables.1

/-- `self.z_syndrome_table` after construction. -/
def z_syndrome_table : Dict := buildSyndromeTables.2

/-- `CSSCode.encode_block`.  The source checks the data length against
`k2 - k1`, builds `logical_word = np.zeros(3)` with `logical_word[1:] =
data`, and returns `np.mod(np.dot(logical_word, G2), 2)`.  `logical_word`
has length 3 while `G2` has 4 rows, so the `np.dot` call raises a numpy
shape ValueError on every input that passes the length check. -/
def encode_block (data : List Nat) : Except PyErr (List Nat) :=
  if data.length ≠ k2 - k1 then
    Except.error PyErr.invalidLength
  else
    let logical_word := List.replicate k1 0 ++ data
    match npDotVecMat logical_word G2 with
    | some w => Except.ok (mod2 w)
    | none => Except.error PyErr.shapeMismatch

/-- `CSSCode._minimum_weight_correction`: recompute the syndrome, try all
weight-1 patterns in order, then all weight-2 patterns `i < j` in order,
and fall back to the all-zero pattern. -/
def minimum_weight_correction (received : List Nat) (H : List (List Nat)) : List Nat :=
  let syndrome := mod2 (npDotMatVec H received)
  match (List.range n1).find?
      (fun i => mod2 (npDotMatVec H (unitError n1 i)) == syndrome) with
  | some i => unitError n1 i
  | none =>
    match ((List.range n1).flatMap
        (fun i => ((List.range n1).drop (i + 1)).map (fun j => (i, j)))).find?
        (fun p => mod2 (npDotMatVec H (twoError p.1 p.2)) == syndrome) with
    | some p => twoError p.1 p.2
    | none => List.replicate n1 0

/-- The `error_pattern` of `decode_block`: the x syndrome table entry for
the `H2` syndrome key of the received block, falling back to the bounded
minimum-weight search when the key is absent. -/
def decode_error_pattern (received : List Nat) : List Nat :=
  match dictLookup x_syndrome_table (syndromeToKey (mod2 (npDotMatVec H2 received))) with
  | some e => e
  | none => minimum_weight_correction received H2

/-- The `corrected` word of `decode_block`:
`np.mod(received + error_pattern, 2)`. -/
def corrected_block (received : List Nat) : List Nat :=
  mod2 (List.zipWith (fun a b => a + b) received (decode_error_pattern received))

/-- `CSSCode.decode_block`: check the length against `n1`, correct with
the looked-up error pattern, and extract the logical bits at positions 3
and 5 of the corrected word (the `n1 == 7` branch of the source). -/
def decode_block (received : List Nat) : Except PyErr (List Nat) :=
  if received.length ≠ n1 then
    Except.error PyErr.invalidLength
  else
    Except.ok [(corrected_block received).getD 3 0, (corrected_block received).getD 5 0]

/-- `BB84ErrorCorrection.effective_k = k2 - k1`, the message bits carried
per block. -/
def effective_k : Nat := k2 - k1

/-- `BB84ErrorCorrection._pad_key`: append zero bits until the length is a
multiple of `effective_k`. -/
def pad_key (key : List Nat) : List Nat :=
  if key.length % effective_k ≠ 0 then
    key ++ List.replicate (effective_k - key.length % effective_k) 0
  else
    key

/-- Splitting helper for `reshape(-1, n)`: cut the list into consecutive
blocks of `n` elements (all call sites first pad to an exact multiple of
`n`, with `n` positive).  The first argument is fuel, instantiated with
the length of the list. -/
def chunksGo (n : Nat) : Nat → List Nat → List (List Nat)
  | _, [] => []
  | 0, _ :: _ => []
  | fuel + 1, a :: l => (a :: l).take n :: chunksGo n fuel ((a :: l).drop n)

/-- `reshape(-1, n)` of a bit sequence as a list of blocks. -/
def chunks (n : Nat) (l : List Nat) : List (List Nat) :=
  chunksGo n l.length l

/-- `BB84ErrorCorrection.encode_key`: pad, split into `effective_k`-blocks,
encode each block, concatenate.  Every call of `encode_block` on a
length-2 block raises, so the first block already aborts the call; on an
empty key `np.concatenate([])` raises ValueError. -/
def encode_key (key : List Nat) : Except PyErr (List Nat) :=
  let blocks := chunks effective_k (pad_key key)
  match blocks.mapM encode_block with
  | Except.error e => Except.error e
  | Except.ok encoded_blocks =>
    if encoded_blocks.isEmpty then Except.error PyErr.emptyConcat
    else Except.ok encoded_blocks.flatten

/-- `BB84ErrorCorrection.decode_key`: remember the received length, pad to
a multiple of `n1`, split, decode each block, concatenate and trim to the
received (pre-padding) length. -/
def decode_key (received_key : List Nat) : Except PyErr (List Nat) :=
  let original_length := received_key.length
  let padded :=
    if received_key.length % n1 ≠ 0 then
      received_key ++ List.replicate (n1 - received_key.length % n1) 0
    else
      received_key
  match (chunks n1 padded).mapM decode_block with
  | Except.error e => Except.error e
  | Except.ok decoded_blocks =>
    if decoded_blocks.isEmpty then Except.error PyErr.emptyConcat
    else Except.ok (decoded_blocks.flatten.take original_length)

/-- Insertion step of the model of Python `sorted` on naturals. -/
def insertSorted (x : Nat) : List Nat → List Nat
  | [] => [x]
  | y :: ys => if x ≤ y then x :: y :: ys else y :: insertSorted x ys

/-- Python `sorted` on a list of naturals (insertion sort). -/
def sortNat (l : List Nat) : List Nat :=
  l.foldr insertSorted []

/-- `BB84ErrorCorrection.identify_errors`: pad to a multiple of `n1`,
split into blocks, and for each block with nonzero `H2` syndrome key take
its error pattern (table, else bounded search), report the set positions
offset by `block_index * n1` when below the original length, and sort. -/
def identify_errors (received_key : List Nat) : List Nat :=
  let original_length := received_key.length
  let padded :=
    if received_key.length % n1 ≠ 0 then
      received_key ++ List.replicate (n1 - received_key.length % n1) 0
    else
      received_key
  let error_positions := (chunks n1 padded).enum.flatMap (fun ib =>
    let i := ib.1
    let block := ib.2
    let x_key := syndromeToKey (mod2 (npDotMatVec H2 block))
    if x_key = 0 then []
    else
      let error_pattern :=
        match dictLookup x_syndrome_table x_key with
        | some e => e
        | none => minimum_weight_correction block H2
      let block_errors :=
        (List.range error_pattern.length).filter (fun pos => error_pattern.getD pos 0 != 0)
      block_errors.filterMap (fun pos =>
        if i * n1 + pos < original_length then some (i * n1 + pos) else none))
  sortNat error_positions

/-- Loop body of `privacy_amp`: block `i` is `key[i*b : i*b+b]`, and when
it has at least 3 bits the pair of adjacent XORs of its first three bits
is emitted. -/
def paBlock (key : List Nat) (bits_per_block : Nat) (i : Nat) : List Nat :=
  let block := (key.drop (i * bits_per_block)).take bits_per_block
  if 3 ≤ block.length then
    [Nat.xor (block.getD 0 0) (block.getD 1 0),
     Nat.xor (block.getD 1 0) (block.getD 2 0)]
  else
    []

/-- `privacy_amp` of `key_processing.py` (the `bits_per_block` parameter
defaults to 3 in the source; every caller and every claim uses that
default).  Keys shorter than `bits_per_block` are returned unchanged. -/
def privacy_amp (key : List Nat) (bits_per_block : Nat) : List Nat :=
  if key.length < bits_per_block then
    key
  else
    (List.range (key.length / bits_per_block)).flatMap (paBlock key bits_per_block)

/-- Loop of `recover_key_with_seed`: for `i` below `len // 2` it reads the
pair `c[2*i], c[2*i+1]`, appends `y = prev ^ c[2*i]` and then
`z = y ^ c[2*i+1]`, and continues with `z` as the last appended value;
consuming the list two elements at a time is the same traversal. -/
def recoverPairs : List Nat → Nat → List Nat
  | a :: b :: rest, prev =>
    let y := Nat.xor prev a
    let z := Nat.xor y b
    y :: z :: recoverPairs rest z
  | _, _ => []

/-- `recover_key_with_seed` of `key_processing.py`: empty input returns
the empty list, otherwise the seed bit followed by the reconstructed
pairs (the `bits_per_block` parameter of the source is unused). -/
def recover_key_with_seed (compressed_key : List Nat) (seed_bit : Nat) : List Nat :=
  match compressed_key with
  | [] => []
  | a :: rest => seed_bit :: recoverPairs (a :: rest) seed_bit

/-- `remove_garbage` of `key_processing.py`: keep `bits[q]` whenever the
two basis choices agree at `q` (all three lists have equal length at every
call site and in the claims). -/
def remove_garbage (a_basis b_basis bits : List Nat) : List Nat :=
  (List.range a_basis.length).foldl
    (fun good_bits q =>
      if a_basis.getD q 0 = b_basis.getD q 0 then good_bits ++ [bits.getD q 0]
      else good_bits)
    []

/-- Modelled from the spec for the refinement claims about
`privacy_amp`: for each non-overlapping window `(x, y, z)` of three input
bits emit `(x XOR y, y XOR z)`, dropping trailing bits that do not fill a
window. -/
def dualXorWindows : List Nat → List Nat
  | x :: y :: z :: rest => Nat.xor x y :: Nat.xor y z :: dualXorWindows rest
  | _ => []

/-- The `(y, z)` pair of every full three-bit window of a key, in order:
the data the spec says seeded recovery reproduces. -/
def yzPairs : List Nat → List Nat
  | _ :: y :: z :: rest => y :: z :: yzPairs rest
  | _ => []

/-- Chaining condition under which seeded recovery reproduces the window
pairs: the running value equals the first bit of the current window, and
the third bit of each window chains into the next window. -/
def seedChain (prev : Nat) : List Nat → Bool
  | x :: _ :: z :: rest => prev == x && seedChain z rest
  | _ => true

/-! Helper lemmas shared by the claim theorems. -/

theorem natXorCancel (a b : Nat) : Nat.xor a (Nat.xor a b) = b := by
  show a ^^^ (a ^^^ b) = b
  rw [← Nat.xor_assoc, Nat.xor_self, Nat.zero_xor]

theorem paBlock_shift (x y z : Nat) (rest : List Nat) (i : Nat) :
    paBlock (x :: y :: z :: rest) 3 (i + 1) = paBlock rest 3 i := by
  unfold paBlock
  have h : (i + 1) * 3 = i * 3 + 3 := by ring
  rw [h]
  rfl

theorem paBlocks_eq : ∀ (key : List Nat),
    (List.range (key.length / 3)).flatMap (paBlock key 3) = dualXorWindows key
  | [] => by simp [dualXorWindows]
  | [_] => by simp [dualXorWindows]
  | [_, _] => by simp [dualXorWindows]
  | x :: y :: z :: rest => by
    have hlen3 : (x :: y :: z :: rest).length = rest.length + 3 := rfl
    have hdiv : (x :: y :: z :: rest).length / 3 = rest.length / 3 + 1 := by
      rw [hlen3]
      exact Nat.add_div_right rest.length (by decide)
    rw [hdiv, List.range_succ_eq_map, List.flatMap_cons, List.flatMap_map]
    simp only [Nat.succ_eq_add_one, paBlock_shift]
    rw [paBlocks_eq rest]
    have h0 : paBlock (x :: y :: z :: rest) 3 0 = [Nat.xor x y, Nat.xor y z] := rfl
    rw [h0]
    simp [dualXorWindows]

theorem privacy_amp_eq_windows (key : List Nat) (h : 3 ≤ key.length) :
    privacy_amp key 3 = dualXorWindows key := by
  unfold privacy_amp
  rw [if_neg (by omega)]
  exact paBlocks_eq key

theorem dualXor_length : ∀ (l : List Nat), (dualXorWindows l).length = 2 * (l.length / 3)
  | [] => by simp [dualXorWindows]
  | [_] => by simp [dualXorWindows]
  | [_, _] => by simp [dualXorWindows]
  | x :: y :: z :: rest => by
    have ih := dualXor_length rest
    simp [dualXorWindows, ih]
    omega

theorem recoverPairs_dualXor : ∀ (K : List Nat) (prev : Nat),
    seedChain prev K = true → recoverPairs (dualXorWindows K) prev = yzPairs K
  | [], _, _ => by simp [dualXorWindows, recoverPairs, yzPairs]
  | [_], _, _ => by simp [dualXorWindows, recoverPairs, yzPairs]
  | [_, _], _, _ => by simp [dualXorWindows, recoverPairs, yzPairs]
  | x :: y :: z :: rest, prev, h => by
    have hh : prev = x ∧ seedChain z rest = true := by simpa [seedChain] using h
    obtain ⟨rfl, hc⟩ := hh
    have ih := recoverPairs_dualXor rest z hc
    simp only [dualXorWindows, recoverPairs, natXorCancel, ih, yzPairs]

theorem recover_cons (a : Nat) (rest : List Nat) (seed : Nat) :
    recover_key_with_seed (a :: rest) seed = seed :: recoverPairs (a :: rest) seed := rfl

theorem recoverPairs_length : ∀ (c : List Nat) (prev : Nat),
    (recoverPairs c prev).length = 2 * (c.length / 2)
  | [], _ => by simp [recoverPairs]
  | [_], _ => by simp [recoverPairs]
  | a :: b :: rest, prev => by
    have ih := recoverPairs_length rest (Nat.xor (Nat.xor prev a) b)
    simp only [recoverPairs, List.length_cons, ih]
    omega

theorem zipWith_add_replicate : ∀ (r : List Nat) (n : Nat),
    List.zipWith (fun a b => a + b) r (List.replicate n 0) = r.take n
  | [], _ => by simp
  | _ :: _, 0 => by simp
  | a :: t, n + 1 => by
    simp [List.replicate_succ, zipWith_add_replicate t n]

theorem mod2_id_of_bits : ∀ (r : List Nat), (∀ b ∈ r, b < 2) → mod2 r = r
  | [], _ => rfl
  | a :: t, h => by
    have ha : a % 2 = a := Nat.mod_eq_of_lt (h a (by simp))
    have ht := mod2_id_of_bits t (fun b hb => h b (by simp [hb]))
    simp only [mod2, List.map_cons] at ht ⊢
    rw [ha, ht]

/-! The claim theorems. -/

/-- Claim C1.  The claimed round trip `decode_key (encode_key key)` never
returns a value: already at the one-bit key `[1]` (padded to the single
block `[1, 0]`) the call `encode_key` aborts with the numpy shape error
raised inside `encode_block`, because `logical_word` has length 3 while
`G2` has 4 rows, so the decode stage is never reached. -/
theorem roundtrip_never_returns :
    (encode_key [1] >>= decode_key) = Except.error PyErr.shapeMismatch := rfl

/-- Claim C2.  There is no codeword whose bits could be flipped: on every
message of the block length 2, `encode_block` raises the numpy shape
error instead of returning a codeword, so the claimed single-error
correction property has no instance. -/
theorem encode_block_always_shape_error (m : List Nat) (h : m.length = 2) :
    encode_block m = Except.error PyErr.shapeMismatch := by
  rcases m with _ | ⟨a, _ | ⟨b, _ | ⟨c, t⟩⟩⟩
  · simp at h
  · simp at h
  · rfl
  · simp at h

/-- Witness for C2: the hypothesis holds at the concrete message
`[1, 1]`. -/
theorem encode_block_always_shape_error_witness :
    ([1, 1] : List Nat).length = 2 ∧
    encode_block [1, 1] = Except.error PyErr.shapeMismatch :=
  ⟨rfl, encode_block_always_shape_error [1, 1] rfl⟩

/-- Claim C3.  `encode_block` does raise the invalid-length error exactly
off the block length 2, but on the block length itself it does not
succeed: the `np.dot` of the length-3 `logical_word` with the 4-row `G2`
raises a shape error, so no input ever yields the claimed codeword.  The
decode direction of the claim does hold: `decode_block` raises the
invalid-length error off length 7 and succeeds on length-7 inputs. -/
theorem encode_block_shape_vs_length :
    encode_block [0, 0] = Except.error PyErr.shapeMismatch ∧
    encode_block [0] = Except.error PyErr.invalidLength ∧
    encode_block [0, 0, 0] = Except.error PyErr.invalidLength ∧
    decode_block [0, 0, 0, 0, 0, 0] = Except.error PyErr.invalidLength ∧
    decode_block [1, 1, 1, 1, 1, 1, 1] = Except.ok [1, 0] :=
  ⟨rfl, rfl, rfl, rfl, rfl⟩

/-- Claim C4.  The weight-2 extension of the syndrome tables never ran:
the pattern at positions 0 and 5 has the `H2` syndrome key 7, which no
weight-1 pattern produces, yet the x table has no entry for key 7;
likewise the pattern at positions 2 and 3 has the `H1` syndrome key 15,
unclaimed by every weight-1 pattern, yet the z table has no entry for
key 15 (the loop iterator `product(range(n1), range(i+1, n1))` is empty
because `i` still holds 6 from the finished weight-1 loop). -/
theorem weight_two_syndromes_missing :
    syndromeToKey (mod2 (npDotMatVec H2 (twoError 0 5))) = 7 ∧
    ((List.range n1).all
      (fun i => syndromeToKey (mod2 (npDotMatVec H2 (unitError n1 i))) != 7)) = true ∧
    dictContains x_syndrome_table 7 = false ∧
    syndromeToKey (mod2 (npDotMatVec H1 (twoError 2 3))) = 15 ∧
    ((List.range n1).all
      (fun i => syndromeToKey (mod2 (npDotMatVec H1 (unitError n1 i))) != 15)) = true ∧
    dictContains z_syndrome_table 15 = false := by decide

/-- Claim C5.  No error-free encoded key exists, since `encode_key`
raises for every key; and on `[0, 1, 0, 1, 0, 0, 1]`, the word the
generator rows used by the source would produce for the message `[1, 0]`,
the error locator reports position 5 even though no error was injected
(the stored `H2` does not annihilate those generator rows).  A block of
genuinely zero syndrome contributes nothing. -/
theorem encode_unreachable_and_locator_flags_clean_word :
    encode_key [1, 0] = Except.error PyErr.shapeMismatch ∧
    identify_errors [0, 1, 0, 1, 0, 0, 1] = [5] ∧
    identify_errors [0, 0, 0, 0, 0, 0, 0] = [] :=
  ⟨rfl, rfl, rfl⟩

/-- Claim C6, counterexample.  With the seed equal to the first window's
middle bit `y` (`K[1]`), recovery does not reproduce the window pairs of
`K = [1, 0, 0]`; and even with the first window's first bit as seed, the
pairs of `K = [0, 0, 0, 1, 0, 0]` are not reproduced, because the second
window's first bit (1) differs from the value the reconstruction chains
on (the first window's third bit, 0). -/
theorem recover_middle_seed_cex :
    (recover_key_with_seed (privacy_amp [1, 0, 0] 3)
      (([1, 0, 0] : List Nat).getD 1 0)).tail ≠ yzPairs [1, 0, 0] ∧
    (recover_key_with_seed (privacy_amp [0, 0, 0, 1, 0, 0] 3)
      (([0, 0, 0, 1, 0, 0] : List Nat).getD 0 0)).tail ≠ yzPairs [0, 0, 0, 1, 0, 0] := by
  exact ⟨by decide, by decide⟩

/-- Claim C6, amended.  For every key of length at least 3, recovery
seeded with the first window's first bit reproduces every full window's
`(y, z)` pair, provided each later window's first bit equals the
preceding window's third bit (the chaining condition `seedChain`): the
recovered sequence is exactly the seed followed by the `(y, z)` pairs. -/
theorem recover_chained_reproduces_pairs (K : List Nat) (h3 : 3 ≤ K.length)
    (hchain : seedChain (K.headD 0) K = true) :
    recover_key_with_seed (privacy_amp K 3) (K.headD 0) = K.headD 0 :: yzPairs K := by
  rw [privacy_amp_eq_windows K h3]
  rcases K with _ | ⟨x, _ | ⟨y, _ | ⟨z, rest⟩⟩⟩
  · simp at h3
  · simp at h3
  · simp at h3
  · have hchain2 : seedChain x (x :: y :: z :: rest) = true := hchain
    have hsh : dualXorWindows (x :: y :: z :: rest) =
        Nat.xor x y :: Nat.xor y z :: dualXorWindows rest := by
      simp [dualXorWindows]
    show recover_key_with_seed (dualXorWindows (x :: y :: z :: rest)) x =
      x :: yzPairs (x :: y :: z :: rest)
    rw [hsh, recover_cons, ← hsh, recoverPairs_dualXor (x :: y :: z :: rest) x hchain2]

/-- Witness for the amended C6 at the key `[1, 1, 0, 0, 1, 1]`, whose
second window starts with the first window's third bit. -/
theorem recover_chained_reproduces_pairs_witness :
    3 ≤ ([1, 1, 0, 0, 1, 1] : List Nat).length ∧
    seedChain (([1, 1, 0, 0, 1, 1] : List Nat).headD 0) [1, 1, 0, 0, 1, 1] = true ∧
    recover_key_with_seed (privacy_amp [1, 1, 0, 0, 1, 1] 3)
      (([1, 1, 0, 0, 1, 1] : List Nat).headD 0) =
      ([1, 1, 0, 0, 1, 1] : List Nat).headD 0 :: yzPairs [1, 1, 0, 0, 1, 1] :=
  ⟨by decide, by decide,
    recover_chained_reproduces_pairs [1, 1, 0, 0, 1, 1] (by decide) (by decide)⟩

/-- Claim C7.  On every key of length at least 3, `privacy_amp` with the
default block size 3 equals the per-window dual-XOR map of the spec, and
its output length is twice the number of full windows. -/
theorem privacy_amp_three_bit (key : List Nat) (h : 3 ≤ key.length) :
    privacy_amp key 3 = dualXorWindows key ∧
    (privacy_amp key 3).length = 2 * (key.length / 3) := by
  have hw := privacy_amp_eq_windows key h
  exact ⟨hw, by rw [hw, dualXor_length]⟩

/-- Witness for C7 at the key `[1, 0, 1, 1]`, whose trailing bit is
dropped. -/
theorem privacy_amp_three_bit_witness :
    3 ≤ ([1, 0, 1, 1] : List Nat).length ∧
    (privacy_amp [1, 0, 1, 1] 3 = dualXorWindows [1, 0, 1, 1] ∧
     (privacy_amp [1, 0, 1, 1] 3).length = 2 * (([1, 0, 1, 1] : List Nat).length / 3)) :=
  ⟨by decide, privacy_amp_three_bit [1, 0, 1, 1] (by decide)⟩

/-- Claim C8, counterexample.  The spec's expected value `[1, 0]` is
wrong: the bases also agree at position 2. -/
theorem remove_garbage_example_cex :
    remove_garbage [0, 1, 0, 1] [0, 0, 0, 1] [1, 1, 0, 0] ≠ [1, 0] := by decide

/-- Claim C8, amended.  The bases `[0, 1, 0, 1]` and `[0, 0, 0, 1]` agree
at positions 0, 2 and 3, so the kept bits are `[1, 0, 0]`. -/
theorem remove_garbage_example :
    remove_garbage [0, 1, 0, 1] [0, 0, 0, 1] [1, 1, 0, 0] = [1, 0, 0] := rfl

/-- Claim C9.  Both syndrome tables map the integer key 0 of the all-zero
syndrome to the all-zero error pattern, and consequently a received
length-7 bit block whose `H2` syndrome key is 0 is decoded without any
bit being changed: the output is the extraction at positions 3 and 5 of
the block itself. -/
theorem zero_syndrome_zero_pattern (r : List Nat) (hlen : r.length = 7)
    (hbits : ∀ b ∈ r, b < 2)
    (hkey : syndromeToKey (mod2 (npDotMatVec H2 r)) = 0) :
    dictLookup x_syndrome_table 0 = some zeroError ∧
    dictLookup z_syndrome_table 0 = some zeroError ∧
    decode_block r = Except.ok [r.getD 3 0, r.getD 5 0] := by
  refine ⟨by decide, by decide, ?_⟩
  have h7 : ¬ r.length ≠ n1 := by simp [n1, hlen]
  have hx : dictLookup x_syndrome_table 0 = some zeroError := by decide
  have hcorr : mod2 (List.zipWith (fun a b => a + b) r zeroError) = r := by
    have h1 : List.zipWith (fun a b => a + b) r (List.replicate n1 0) = r.take n1 :=
      zipWith_add_replicate r n1
    have hn : n1 = r.length := by rw [hlen]; rfl
    have h2 : r.take n1 = r := by rw [hn]; exact List.take_length r
    rw [zeroError, h1, h2]
    exact mod2_id_of_bits r hbits
  have hpat : decode_error_pattern r = zeroError := by
    unfold decode_error_pattern
    rw [hkey, hx]
  have hcb : corrected_block r = r := by
    unfold corrected_block
    rw [hpat]
    exact hcorr
  unfold decode_block
  rw [if_neg h7, hcb]

/-- Witness for C9 at the all-zero block. -/
theorem zero_syndrome_zero_pattern_witness :
    ([0, 0, 0, 0, 0, 0, 0] : List Nat).length = 7 ∧
    (∀ b ∈ ([0, 0, 0, 0, 0, 0, 0] : List Nat), b < 2) ∧
    syndromeToKey (mod2 (npDotMatVec H2 [0, 0, 0, 0, 0, 0, 0])) = 0 ∧
    (dictLookup x_syndrome_table 0 = some zeroError ∧
     dictLookup z_syndrome_table 0 = some zeroError ∧
     decode_block [0, 0, 0, 0, 0, 0, 0] =
       Except.ok [([0, 0, 0, 0, 0, 0, 0] : List Nat).getD 3 0,
                  ([0, 0, 0, 0, 0, 0, 0] : List Nat).getD 5 0]) :=
  ⟨by decide, by decide, by decide,
    zero_syndrome_zero_pattern [0, 0, 0, 0, 0, 0, 0] (by decide) (by decide) (by decide)⟩

/-- Claim C10.  `recover_key_with_seed` is total; on the empty compressed
key it returns the empty list without emitting the seed, and on a
non-empty compressed key of length L it returns `2 * (L / 2) + 1` bits, a
trailing unpaired element being ignored. -/
theorem recover_total_and_length (c : List Nat) (s : Nat) :
    recover_key_with_seed [] s = [] ∧
    (c ≠ [] → (recover_key_with_seed c s).length = 2 * (c.length / 2) + 1) := by
  refine ⟨rfl, fun hc => ?_⟩
  rcases c with _ | ⟨a, rest⟩
  · exact absurd rfl hc
  · rw [recover_cons, List.length_cons, recoverPairs_length]

/-- Witness for C10 at the odd-length compressed key `[1, 0, 1]`. -/
theorem recover_total_and_length_witness :
    recover_key_with_seed [] 0 = [] ∧
    (([1, 0, 1] : List Nat) ≠ [] ∧
     (recover_key_with_seed [1, 0, 1] 0).length = 2 * (([1, 0, 1] : List Nat).length / 2) + 1) :=
  ⟨(recover_total_and_length [1, 0, 1] 0).1,
    by decide, (recover_total_and_length [1, 0, 1] 0).2 (by decide)⟩

end BB84
